import Mathlib

/-!
Verification of the deliverable caching and session-state coordination layer
of the SideKickOS email-drafting agent flow.

The definitions below are a shallow embedding of the TypeScript source:

* the deliverable store (`computeDeliverableKey`, `recordEmailDeliverable`,
  `getEmailDeliverable`, `getRunOutcome`, `resetDeliverables`) — the two
  process-wide `Map`s are modelled as association lists threaded explicitly
  through every operation;
* the zod schemas (`emailDraftSchema`, `emailDraftDeliverableSchema`,
  `emailDraftAgentInputSchema`) as explicit validators;
* the deterministic fallback generator (`normalizeSentence`, `chooseTone`,
  `buildSubject`, `bulletList`, `buildPrimaryBody`, `buildVariantBodies`,
  `buildDeliverable`, `reportEmailDraft`, `runEmailDraftFallback`);
* the session store (`updateSessionHistory`);
* the guardrail check and the orchestration driver
  (`runGuardrails`, `runViaOrchestrator`, `runEmailAgentFromPayload`).

`computeDeliverableKey` is `sha256(JSON.stringify(payload ?? {}))` in the
source; both SHA-256 and the insertion-ordered `JSON.stringify` are embedded
executably so that concrete cache keys can be computed by the kernel.

Throwing TypeScript code is modelled with `Except String`; `crypto.randomUUID()`
and `process.env` are modelled as explicit parameters (a UUID is a fixed,
non-empty string chosen by the environment); the external agent runtime
(`runner.run`) is an opaque state transformer that may mutate the deliverable
store and may throw.
-/

/-! ### Association-list maps

`Map.get` / `Map.set` of the process-wide stores, in value semantics:
`mapSet` replaces the first binding of the key or appends a new one. -/

def mapGet {α : Type} (k : String) : List (String × α) → Option α
  | [] => none
  | (k2, v) :: rest => if k = k2 then some v else mapGet k rest

def mapSet {α : Type} (k : String) (v : α) : List (String × α) → List (String × α)
  | [] => [(k, v)]
  | (k2, v2) :: rest => if k = k2 then (k, v) :: rest else (k2, v2) :: mapSet k v rest

/-! ### SHA-256

Executable embedding of the digest used by `createHash("sha256")`, over byte
lists, 32-bit words as `Nat` reduced mod `2^32`. -/

def w32 (n : Nat) : Nat := n % 4294967296

def rotr32 (x n : Nat) : Nat :=
  w32 ((x >>> n) ||| (x <<< (32 - n)))

def shaCh (x y z : Nat) : Nat := w32 ((x &&& y) ^^^ ((4294967295 - x) &&& z))

def shaMaj (x y z : Nat) : Nat := (x &&& y) ^^^ (x &&& z) ^^^ (y &&& z)

def shaS0 (x : Nat) : Nat := rotr32 x 2 ^^^ rotr32 x 13 ^^^ rotr32 x 22

def shaS1 (x : Nat) : Nat := rotr32 x 6 ^^^ rotr32 x 11 ^^^ rotr32 x 25

def shas0 (x : Nat) : Nat := rotr32 x 7 ^^^ rotr32 x 18 ^^^ (x >>> 3)

def shas1 (x : Nat) : Nat := rotr32 x 17 ^^^ rotr32 x 19 ^^^ (x >>> 10)

def shaK : List Nat := [
  1116352408, 1899447441, 3049323471, 3921009573, 961987163, 1508970993,
  2453635748, 2870763221, 3624381080, 310598401, 607225278, 1426881987,
  1925078388, 2162078206, 2614888103, 3248222580, 3835390401, 4022224774,
  264347078, 604807628, 770255983, 1249150122, 1555081692, 1996064986,
  2554220882, 2821834349, 2952996808, 3210313671, 3336571891, 3584528711,
  113926993, 338241895, 666307205, 773529912, 1294757372, 1396182291,
  1695183700, 1986661051, 2177026350, 2456956037, 2730485921, 2820302411,
  3259730800, 3345764771, 3516065817, 3600352804, 4094571909, 275423344,
  430227734, 506948616, 659060556, 883997877, 958139571, 1322822218,
  1537002063, 1747873779, 1955562222, 2024104815, 2227730452, 2361852424,
  2428436474, 2756734187, 3204031479, 3329325298]

def shaH0 : List Nat :=
  [1779033703, 3144134277, 1013904242, 2773480762,
   1359893119, 2600822924, 528734635, 1541459225]

/-- Big-endian bytes of `n`, exactly `count` bytes. -/
def beBytes (count n : Nat) : List Nat :=
  match count with
  | 0 => []
  | k + 1 => beBytes k (n >>> 8) ++ [n % 256]

/-- SHA-256 padding: append `0x80`, zeros, then the 64-bit big-endian bit length. -/
def shaPad (msg : List Nat) : List Nat :=
  let L := msg.length
  let zeros := (64 + 56 - (L + 1) % 64) % 64
  msg ++ [0x80] ++ List.replicate zeros 0 ++ beBytes 8 (L * 8)

/-- Group bytes into 32-bit big-endian words. -/
def bytesToWords : List Nat → List Nat
  | b0 :: b1 :: b2 :: b3 :: rest =>
      (((b0 * 256 + b1) * 256 + b2) * 256 + b3) :: bytesToWords rest
  | _ => []

/-- Split a word list into 16-word blocks (the padded message divides evenly). -/
def toBlocks : List Nat → List (List Nat)
  | w0 :: w1 :: w2 :: w3 :: w4 :: w5 :: w6 :: w7 ::
    w8 :: w9 :: w10 :: w11 :: w12 :: w13 :: w14 :: w15 :: rest =>
      [w0, w1, w2, w3, w4, w5, w6, w7, w8, w9, w10, w11, w12, w13, w14, w15] :: toBlocks rest
  | _ => []

/-- Extend the 16 block words to the 64-word message schedule; `rev` holds the
words produced so far, most recent first. -/
def scheduleGo : List Nat → Nat → List Nat
  | rev, 0 => rev.reverse
  | rev, fuel + 1 =>
      let x := w32 (shas1 (rev.getD 1 0) + rev.getD 6 0 + shas0 (rev.getD 14 0) + rev.getD 15 0)
      scheduleGo (x :: rev) fuel

def buildSchedule (block : List Nat) : List Nat :=
  scheduleGo block.reverse 48

def roundStep (st : Nat × Nat × Nat × Nat × Nat × Nat × Nat × Nat) (kw : Nat × Nat) :
    Nat × Nat × Nat × Nat × Nat × Nat × Nat × Nat :=
  let (a, b, c, d, e, f, g, h) := st
  let t1 := w32 (h + shaS1 e + shaCh e f g + kw.1 + kw.2)
  let t2 := w32 (shaS0 a + shaMaj a b c)
  (w32 (t1 + t2), a, b, c, w32 (d + t1), e, f, g)

def compress (h : List Nat) (block : List Nat) : List Nat :=
  let w := buildSchedule block
  let init := (h.getD 0 0, h.getD 1 0, h.getD 2 0, h.getD 3 0,
               h.getD 4 0, h.getD 5 0, h.getD 6 0, h.getD 7 0)
  let fin := (shaK.zip w).foldl roundStep init
  let (a, b, c, d, e, f, g, hh) := fin
  [w32 (h.getD 0 0 + a), w32 (h.getD 1 0 + b), w32 (h.getD 2 0 + c), w32 (h.getD 3 0 + d),
   w32 (h.getD 4 0 + e), w32 (h.getD 5 0 + f), w32 (h.getD 6 0 + g), w32 (h.getD 7 0 + hh)]

def sha256Words (msg : List Nat) : List Nat :=
  (toBlocks (bytesToWords (shaPad msg))).foldl compress shaH0

def hexDigit (n : Nat) : Char :=
  if n < 10 then Char.ofNat (48 + n) else Char.ofNat (87 + n)

def wordToHex (n : Nat) : List Char :=
  [hexDigit ((n >>> 28) % 16), hexDigit ((n >>> 24) % 16), hexDigit ((n >>> 20) % 16),
   hexDigit ((n >>> 16) % 16), hexDigit ((n >>> 12) % 16), hexDigit ((n >>> 8) % 16),
   hexDigit ((n >>> 4) % 16), hexDigit (n % 16)]

/-- UTF-8 encoding of one code point (`crypto.update` hashes the UTF-8 bytes). -/
def utf8Bytes (c : Char) : List Nat :=
  let n := c.toNat
  if n < 0x80 then [n]
  else if n < 0x800 then [0xc0 ||| (n >>> 6), 0x80 ||| (n &&& 0x3f)]
  else if n < 0x10000 then
    [0xe0 ||| (n >>> 12), 0x80 ||| ((n >>> 6) &&& 0x3f), 0x80 ||| (n &&& 0x3f)]
  else
    [0xf0 ||| (n >>> 18), 0x80 ||| ((n >>> 12) &&& 0x3f),
     0x80 ||| ((n >>> 6) &&& 0x3f), 0x80 ||| (n &&& 0x3f)]

def sha256Hex (s : String) : String :=
  String.mk ((sha256Words (s.data.flatMap utf8Bytes)).flatMap wordToHex)

/-- NIST test vector, checking the embedding of the digest. -/
example : sha256Hex "abc" = "ba7816bf8f01cfea414140de5dae2223b00361a396177a9cb410ff61f20015ad" := by
  decide

/-! ### JSON values and `JSON.stringify`

`computeDeliverableKey` hashes `JSON.stringify(payload ?? {})`. JavaScript
objects keep insertion order, so an object is a `List` of fields; `undef`
models `undefined` (dropped from objects, `null` inside arrays). -/

inductive Json where
  | str (s : String)
  | num (n : Nat)
  | jbool (b : Bool)
  | jnull
  | undef
  | arr (elems : List Json)
  | obj (fields : List (String × Json))

def joinWith (sep : String) : List String → String
  | [] => ""
  | [x] => x
  | x :: y :: rest => x ++ sep ++ joinWith sep (y :: rest)

def quoteChar (c : Char) : String :=
  if c = '"' then "\\\""
  else if c = '\\' then "\\\\"
  else if c = '\n' then "\\n"
  else if c = '\t' then "\\t"
  else if c = '\r' then "\\r"
  else String.singleton c

def jsonQuote (s : String) : String :=
  "\"" ++ String.join (s.data.map quoteChar) ++ "\""

mutual

def jsonRender : Json → String
  | .str s => jsonQuote s
  | .num n => toString n
  | .jbool true => "true"
  | .jbool false => "false"
  | .jnull => "null"
  | .undef => "null"
  | .arr elems => "[" ++ joinWith "," (jsonRenderList elems) ++ "]"
  | .obj fields => "\x7b" ++ joinWith "," (jsonRenderFields fields) ++ "\x7d"

def jsonRenderList : List Json → List String
  | [] => []
  | x :: xs => jsonRender x :: jsonRenderList xs

def jsonRenderFields : List (String × Json) → List String
  | [] => []
  | (_, .undef) :: fs => jsonRenderFields fs
  | (k, v) :: fs => (jsonQuote k ++ ":" ++ jsonRender v) :: jsonRenderFields fs

end

/-- The `payload ?? {}` nullish coalescing in `computeDeliverableKey`. -/
def jsonOrEmptyObject : Json → Json
  | .jnull => .obj []
  | .undef => .obj []
  | j => j

/-- `computeDeliverableKey(payload) = sha256(JSON.stringify(payload ?? {})).hex`. -/
def computeDeliverableKey (payload : Json) : String :=
  sha256Hex (jsonRender (jsonOrEmptyObject payload))

/-! ### Email data model

Mirrors the zod-inferred types in `models/email`. The deliverable `type` field
is the fixed literal `"email-draft"` and carries no information, so it is not a
structure field; `metadata.tone` and `metadata.additionalContext` are optional
in the deliverable schema (`undefined` is modelled as `none`). -/

structure EmailDraftVariant where
  label : String
  body : String
deriving DecidableEq, Repr

structure EmailDraft where
  subject : String
  body : String
  variants : List EmailDraftVariant
deriving DecidableEq, Repr

structure EmailMetadata where
  recipient : String
  tone : Option String
  keyPoints : List String
  additionalContext : Option String
deriving DecidableEq, Repr

structure EmailDraftDeliverable where
  draft : EmailDraft
  metadata : EmailMetadata
deriving DecidableEq, Repr

/-- The validated agent input (`variants` has its zod default already applied). -/
structure EmailDraftAgentInput where
  recipient : String
  tone : String
  keyPoints : List String
  additionalContext : Option String
  variants : Nat
deriving DecidableEq, Repr

/-! ### The zod schemas as validators

Each check returns `Except.error` with the schema's message where `.parse`
would throw. `String.length` matches the JavaScript `.length` the schemas
test (the strings in play are ASCII). -/

/-- `emailDraftSchema.parse` on an already-assembled draft (`variants` is
always supplied by this code path, so its `.default([])` never fires). -/
def emailDraftCheck (d : EmailDraft) : Except String EmailDraft :=
  if d.subject.length < 3 then .error "Subject must be at least 3 characters."
  else if d.body.length < 25 then .error "Body must be at least 25 characters."
  else if 4 < d.variants.length then .error "Array must contain at most 4 element(s)"
  else if !(d.variants.all fun v => 3 ≤ v.label.length) then
    .error "Variant label must be at least 3 characters."
  else if !(d.variants.all fun v => 10 ≤ v.body.length) then
    .error "Variant body must be at least 10 characters."
  else .ok d

/-- An optional string satisfies a `.min(n)` bound when present. -/
def optMinLen (n : Nat) : Option String → Bool
  | some s => n ≤ s.length
  | none => true

/-- An optional string satisfies a `.max(n)` bound when present. -/
def optMaxLen (n : Nat) : Option String → Bool
  | some s => s.length ≤ n
  | none => true

/-- `emailDraftDeliverableSchema.parse`: the draft sub-schema plus the metadata
object (recipient min 2; tone min 3 **max 32** when present; at least one key
point, each min 3; additionalContext max 2000 when present). -/
def emailDraftDeliverableCheck (d : EmailDraftDeliverable) : Except String EmailDraftDeliverable :=
  match emailDraftCheck d.draft with
  | .error e => .error e
  | .ok _ =>
      if d.metadata.recipient.length < 2 then
        .error "Recipient must include a name or role."
      else if !(optMinLen 3 d.metadata.tone) then
        .error "String must contain at least 3 character(s)"
      else if !(optMaxLen 32 d.metadata.tone) then
        .error "String must contain at most 32 character(s)"
      else if d.metadata.keyPoints.length < 1 then
        .error "Array must contain at least 1 element(s)"
      else if !(d.metadata.keyPoints.all fun p => 3 ≤ p.length) then
        .error "String must contain at least 3 character(s)"
      else if !(optMaxLen 2000 d.metadata.additionalContext) then
        .error "String must contain at most 2000 character(s)"
      else .ok d

/-- `emailDraftAgentInputSchema` acceptance on an already-typed input (used to
state "valid input"): recipient min 2, tone min 3, at least one key point each
min 3, additionalContext max 2000, variants an integer in `[1, 3]`. -/
def validEmailInput (i : EmailDraftAgentInput) : Bool :=
  2 ≤ i.recipient.length && 3 ≤ i.tone.length &&
  1 ≤ i.keyPoints.length && (i.keyPoints.all fun p => 3 ≤ p.length) &&
  optMaxLen 2000 i.additionalContext &&
  1 ≤ i.variants && i.variants ≤ 3

/-! ### The deliverable store

`deliverablesByKey` and `runOutcomeById` are process-wide `Map`s in the source;
here they are one explicit state value threaded through each operation. -/

structure RunOutcome where
  cacheKey : String
  identicalToExisting : Bool
deriving DecidableEq, Repr

structure DeliverablesState where
  deliverablesByKey : List (String × EmailDraftDeliverable)
  runOutcomeById : List (String × RunOutcome)
deriving DecidableEq, Repr

def emptyDeliverables : DeliverablesState := ⟨[], []⟩

/-- JSON value of a metadata object. zod's `.parse` rebuilds strict objects in
schema shape order, so every metadata object reaching the store has this key
order: recipient, tone, keyPoints, additionalContext (absent optionals are
`undefined` and are dropped by `JSON.stringify`). -/
def metadataToJson (m : EmailMetadata) : Json :=
  .obj [("recipient", .str m.recipient),
        ("tone", match m.tone with | some t => .str t | none => .undef),
        ("keyPoints", .arr (m.keyPoints.map Json.str)),
        ("additionalContext", match m.additionalContext with | some a => .str a | none => .undef)]

/-- The fingerprint `computeDeliverableKey({ runId, metadata })`. -/
def deliverableCacheKey (runId : String) (m : EmailMetadata) : String :=
  computeDeliverableKey (.obj [("runId", .str runId), ("metadata", metadataToJson m)])

def getEmailDeliverable (key : String) (s : DeliverablesState) : Option EmailDraftDeliverable :=
  mapGet key s.deliverablesByKey

def getRunOutcome (runId : String) (s : DeliverablesState) : Option RunOutcome :=
  mapGet runId s.runOutcomeById

structure RecordResult where
  deliverable : EmailDraftDeliverable
  identicalToExisting : Bool
  cacheKey : String
deriving DecidableEq, Repr

/-- `recordEmailDeliverable(runId, deliverable)`: on a fingerprint hit, return
the stored deliverable and leave the entry alone; otherwise store the new one.
Either way `runOutcomeById` is updated for `runId`. -/
def recordEmailDeliverable (runId : String) (d : EmailDraftDeliverable)
    (s : DeliverablesState) : RecordResult × DeliverablesState :=
  let cacheKey := deliverableCacheKey runId d.metadata
  match mapGet cacheKey s.deliverablesByKey with
  | some existing =>
      (⟨existing, true, cacheKey⟩,
       { s with runOutcomeById := mapSet runId ⟨cacheKey, true⟩ s.runOutcomeById })
  | none =>
      (⟨d, false, cacheKey⟩,
       { deliverablesByKey := mapSet cacheKey d s.deliverablesByKey,
         runOutcomeById := mapSet runId ⟨cacheKey, false⟩ s.runOutcomeById })

/-- `resetDeliverables()` clears both maps. -/
def resetDeliverables : DeliverablesState := emptyDeliverables

/-! ### String helpers of the fallback generator

JavaScript's `trim` / `toLowerCase` / character classes, embedded on the
character list of a `String` (the inputs in play are ASCII, where the
JavaScript and Lean notions agree). -/

def isJsSpace (c : Char) : Bool :=
  c = ' ' || c = '\t' || c = '\n' || c = '\r' || c = '\x0b' || c = '\x0c' || c = '\xa0'

def jsTrim (s : String) : String :=
  String.mk (((s.data.dropWhile isJsSpace).reverse.dropWhile isJsSpace).reverse)

def lowerStr (s : String) : String :=
  String.mk (s.data.map Char.toLower)

def isAsciiAlnum (c : Char) : Bool :=
  ('a' ≤ c && c ≤ 'z') || ('A' ≤ c && c ≤ 'Z') || ('0' ≤ c && c ≤ '9')

def isTerminalPunct (c : Char) : Bool :=
  c = '.' || c = '!' || c = '?'

/-- `text.replace(/^[^a-zA-Z0-9]+/, "")`. -/
def stripLeadingNonAlnum (s : String) : String :=
  String.mk (s.data.dropWhile fun c => !(isAsciiAlnum c))

/-- `text.replace(/[.!?]+$/, "")`. -/
def stripTrailingPunct (s : String) : String :=
  String.mk ((s.data.reverse.dropWhile isTerminalPunct).reverse)

/-- `/([.!?])$/.test(s)`. -/
def endsWithPunct (s : String) : Bool :=
  match s.data.getLast? with
  | some c => isTerminalPunct c
  | none => false

/-! ### The fallback generator (`email-fallback`) -/

/-- Trim, capitalize the first character, enforce terminal punctuation. -/
def normalizeSentence (text : String) : String :=
  let trimmed := jsTrim text
  match trimmed.data with
  | [] => ""
  | c :: cs =>
      let capitalized := String.mk (c.toUpper :: cs)
      if endsWithPunct capitalized then capitalized else capitalized ++ "."

structure TonePreset where
  greeting : String
  signOff : String
  voice : String
deriving DecidableEq, Repr

/-- Case-insensitive exact match of the tone string against the fixed table;
unmatched tones fall back to the neutral preset. -/
def chooseTone (tone : String) : TonePreset :=
  let normalized := jsTrim (lowerStr tone)
  if normalized = "friendly" || normalized = "warm" then ⟨"Hi", "Warm regards", "friendly"⟩
  else if normalized = "formal" then ⟨"Hello", "Sincerely", "formal"⟩
  else if normalized = "direct" then ⟨"Hello", "Regards", "direct"⟩
  else if normalized = "enthusiastic" then ⟨"Hey", "Cheers", "enthusiastic"⟩
  else ⟨"Hello", "Best regards", "neutral"⟩

/-- First key point (or `"next steps"`), leading non-alphanumerics and trailing
punctuation stripped, prefixed with `"For {recipient}: "` when a recipient is
given; an empty cleaned key point becomes `"Next steps"`. -/
def buildSubject (input : EmailDraftAgentInput) : String :=
  let focus := input.keyPoints.headD "next steps"
  let cleaned := jsTrim (stripTrailingPunct (stripLeadingNonAlnum focus))
  let pfx := if input.recipient ≠ "" then "For " ++ input.recipient ++ ": " else ""
  pfx ++ (if 0 < cleaned.length then cleaned else "Next steps")

def bulletList (points : List String) : String :=
  joinWith "\n"
    ((points.filter fun point => 0 < (jsTrim point).length).map
      fun point => "- " ++ normalizeSentence point)

/-- The primary body: the source builds the line list, drops falsy (empty)
entries with `.filter(Boolean)`, and joins with newlines. -/
def buildPrimaryBody (input : EmailDraftAgentInput) : String :=
  let tonePreset := chooseTone input.tone
  let greetingLine :=
    tonePreset.greeting ++ " " ++ (if input.recipient ≠ "" then input.recipient else "there") ++ ","
  let intro :=
    if tonePreset.voice = "formal" then "I hope you are well."
    else "I hope your day is going well."
  let purpose := normalizeSentence
    (input.additionalContext.getD
      "I wanted to summarize the plan so we can keep momentum on the request")
  let bullets := bulletList input.keyPoints
  let closingPrompt :=
    if tonePreset.voice = "direct" then
      "Let me know if anything needs adjustment so I can update immediately."
    else
      "Please let me know if anything needs refining or if you'd like to discuss details."
  joinWith "\n"
    (([greetingLine, "", jsTrim (intro ++ " " ++ purpose), "",
       "Here are the talking points we'll highlight:", bullets, "", closingPrompt, "",
       tonePreset.signOff ++ ",", "SideKick OS Assistant"].filter fun line => line ≠ ""))

/-- The three fixed variant styles, truncated to the requested count (`.slice(0, variants)`;
the `?? 2` on `input.variants` is dead after validation applies the default). -/
def buildVariantBodies (input : EmailDraftAgentInput) : List EmailDraftVariant :=
  let variants : List (String × String) := [
    ("Concise recap", joinWith "\n" [
        (chooseTone input.tone).greeting ++ " " ++
          (if input.recipient ≠ "" then input.recipient else "there") ++ ",",
        "",
        "Quick recap of what we'll cover: " ++
          joinWith " " (input.keyPoints.map normalizeSentence),
        "",
        "Appreciate your feedback on any lingering items.",
        "",
        (chooseTone input.tone).signOff ++ ",",
        "SideKick OS Assistant"]),
    ("Action-focused", joinWith "\n" [
        (chooseTone "direct").greeting ++ " " ++
          (if input.recipient ≠ "" then input.recipient else "team") ++ ",",
        "",
        "Here's the plan of action:",
        bulletList input.keyPoints,
        "",
        "I'll send a finalized version after your review.",
        "",
        (chooseTone "direct").signOff ++ ",",
        "SideKick OS Assistant"]),
    ("Relationship-first", joinWith "\n" [
        (chooseTone "friendly").greeting ++ " " ++
          (if input.recipient ≠ "" then input.recipient else "there") ++ ",",
        "",
        "Appreciate the opportunity to collaborate. Key notes I'll weave in:",
        bulletList input.keyPoints,
        "",
        "Happy to adjust tone or detail based on your perspective.",
        "",
        (chooseTone "friendly").signOff ++ ",",
        "SideKick OS Assistant"])]
  (variants.take input.variants).map fun lv => ⟨lv.1, lv.2⟩

/-- The deliverable the fallback path assembles before any re-validation. -/
def fallbackDeliverable (input : EmailDraftAgentInput) : EmailDraftDeliverable :=
  ⟨⟨buildSubject input, buildPrimaryBody input, buildVariantBodies input⟩,
   ⟨input.recipient, some input.tone, input.keyPoints, input.additionalContext⟩⟩

/-- `buildDeliverable`: assemble the draft, validate it with
`emailDraftSchema.parse` (which throws on failure), echo the input as metadata. -/
def buildDeliverable (input : EmailDraftAgentInput) : Except String EmailDraftDeliverable :=
  match emailDraftCheck ⟨buildSubject input, buildPrimaryBody input, buildVariantBodies input⟩ with
  | .error e => .error e
  | .ok _ => .ok (fallbackDeliverable input)

/-- `normalizeEmailDeliverable`: `emailDraftDeliverableSchema.parse`, then
`variants ?? []` — the schema default makes the coalescing the identity. -/
def normalizeEmailDeliverable (payload : EmailDraftDeliverable) :
    Except String EmailDraftDeliverable :=
  match emailDraftDeliverableCheck payload with
  | .error e => .error e
  | .ok parsed => .ok parsed

/-- `reportEmailDraft(payload, { runId })`: reject a falsy (empty) runId, then
normalize and record. -/
def reportEmailDraft (runId : String) (payload : EmailDraftDeliverable)
    (s : DeliverablesState) : Except String (RecordResult × DeliverablesState) :=
  if runId = "" then .error "Missing run identifier while recording deliverable"
  else
    match normalizeEmailDeliverable payload with
    | .error e => .error e
    | .ok d => .ok (recordEmailDeliverable runId d s)

/-- `runEmailDraftFallback`: build the deliverable and report it under the
context's runId. `createRuntimeContext` draws `runId` from the overrides or
`crypto.randomUUID()`; the drawn value is the explicit `runId` argument here. -/
def runEmailDraftFallback (input : EmailDraftAgentInput) (runId : String)
    (s : DeliverablesState) : Except String (RecordResult × DeliverablesState) :=
  match buildDeliverable input with
  | .error e => .error e
  | .ok d => reportEmailDraft runId d s

/-! ### The session store (`agent-sessions`)

`AgentInputItem` is an external type of the agent framework; only its identity
matters here. The `sessions` map is threaded explicitly. -/

structure AgentInputItem where
  role : String
  content : String
deriving DecidableEq, Repr

structure EmailAgentRuntimeContext where
  runId : String
  threadId : Option String
  workflowId : String
  intent : String
  createdAt : String
  payload : Option EmailDraftAgentInput
deriving DecidableEq, Repr

structure SessionState where
  context : EmailAgentRuntimeContext
  history : List AgentInputItem
deriving DecidableEq, Repr

abbrev SessionMap := List (String × SessionState)

/-- `updateSessionHistory(threadId, items)`: replace the stored history
wholesale; silently do nothing when the threadId is unknown. -/
def updateSessionHistory (threadId : String) (items : List AgentInputItem)
    (sessions : SessionMap) : SessionMap :=
  match mapGet threadId sessions with
  | none => sessions
  | some entry => mapSet threadId ⟨entry.context, items⟩ sessions

/-! ### The guardrail check (`email-agent-runner`) -/

/-- Does `needle` occur as a prefix of `hay`? -/
def charsHavePrefix : List Char → List Char → Bool
  | [], _ => true
  | _ :: _, [] => false
  | c :: cs, d :: ds => c = d && charsHavePrefix cs ds

/-- Does `needle` occur as a contiguous substring of `hay`? -/
def charsHaveSubstr (needle : List Char) : List Char → Bool
  | [] => charsHavePrefix needle []
  | c :: rest => charsHavePrefix needle (c :: rest) || charsHaveSubstr needle rest

/-- `/credit\s*card/` at some position of an (already lowercased) text. -/
def creditCardFrom : List Char → Bool
  | [] => false
  | c :: rest =>
      (charsHavePrefix ("credit".data) (c :: rest) &&
        charsHavePrefix ("card".data) (((c :: rest).drop 6).dropWhile isJsSpace)) ||
      creditCardFrom rest

/-- `SENSITIVE_PATTERNS = [/ssn/i, /password/i, /credit\s*card/i]`. -/
def matchesSensitive (s : String) : Bool :=
  let lower := (lowerStr s).data
  charsHaveSubstr ("ssn".data) lower || charsHaveSubstr ("password".data) lower ||
    creditCardFrom lower

/-- The text blob the guardrail scans: recipient, tone, additionalContext and
all key points, falsy (absent or empty) entries dropped, joined with `" \n"`. -/
def guardrailText (input : EmailDraftAgentInput) : String :=
  joinWith " \n"
    (([input.recipient, input.tone] ++
      (match input.additionalContext with | some a => [a] | none => []) ++
      input.keyPoints).filter fun part => part ≠ "")

def guardrailReason : String :=
  "Request appears to contain sensitive information. Please remove it before continuing."

/-- `runGuardrails`: `some reason` models `{ ok: false, reason }`. -/
def runGuardrails (input : EmailDraftAgentInput) : Option String :=
  if matchesSensitive (guardrailText input) then some guardrailReason else none

/-! ### Input validation of the raw request payload

`RawEmailPayload` is the driver's `payload: unknown` restricted to the typed
shape; `validationMessages` lists the zod issue messages in schema shape
order, and `safeParse` fails exactly when the list is non-empty. -/

structure RawEmailPayload where
  recipient : String
  tone : String
  keyPoints : List String
  additionalContext : Option String
  variants : Option Int
deriving DecidableEq, Repr

def validationMessages (p : RawEmailPayload) : List String :=
  (if p.recipient.length < 2 then ["Provide the recipient name or role."] else []) ++
  (if p.tone.length < 3 then ["Tone should describe the style (e.g. warm, formal)."] else []) ++
  (if p.keyPoints.length < 1 then ["List at least one key point."] else []) ++
  ((p.keyPoints.filter fun k => k.length < 3).map
    fun _ => "String must contain at least 3 character(s)") ++
  (match p.additionalContext with
   | some a => if 2000 < a.length then ["String must contain at most 2000 character(s)"] else []
   | none => []) ++
  (match p.variants with
   | some v =>
       (if v < 1 then ["Number must be greater than or equal to 1"] else []) ++
       (if 3 < v then ["Number must be less than or equal to 3"] else [])
   | none => [])

/-- `emailDraftAgentInputSchema.safeParse` (the zod default `variants = 2`
applies when the field is absent). -/
def parseEmailAgentInput (p : RawEmailPayload) :
    Except (List String) EmailDraftAgentInput :=
  if validationMessages p = [] then
    .ok ⟨p.recipient, p.tone, p.keyPoints, p.additionalContext, (p.variants.getD 2).toNat⟩
  else .error (validationMessages p)

/-! ### The orchestration driver (`email-agent-runner`) -/

/-- Environment of one driver invocation: the provider credential
(`process.env.OPENAI_API_KEY`), the runIds `crypto.randomUUID()` draws for the
orchestrated and the fallback runtime contexts, and the external agent runtime
(`runner.run`) as an opaque transformer of the deliverable store that reports
whether it threw. -/
structure DriverEnv where
  apiKey : Option String
  orchRunId : String
  fallbackRunId : String
  orch : DeliverablesState → DeliverablesState × Bool

/-- The driver's result union: `success` is the `ok: true` branch
(`fallbackUsed` stays absent on the orchestrated path), `rejected` is the
`ok: false` branch. -/
inductive EmailAgentRunnerResponse where
  | success (deliverable : EmailDraftDeliverable) (identicalToExisting : Bool)
      (cacheKey : String) (runId : String) (providerConfigured : Bool)
      (fallbackUsed : Option Bool)
  | rejected (reason : String) (providerConfigured : Option Bool)
deriving DecidableEq, Repr

structure OrchestratorRunResult where
  deliverable : EmailDraftDeliverable
  identicalToExisting : Bool
  cacheKey : String
  runId : String
deriving DecidableEq, Repr

/-- `runViaOrchestrator`: require the credential, run the external runtime
(which may mutate the store before throwing), then look up the outcome the
agent should have recorded for this runId and resolve its deliverable.
The prompt string only feeds the opaque runtime, so it is part of `env.orch`. -/
def runViaOrchestrator (env : DriverEnv) (s : DeliverablesState) :
    Except String OrchestratorRunResult × DeliverablesState :=
  match env.apiKey with
  | none => (.error "Missing OPENAI_API_KEY", s)
  | some _ =>
      let run := env.orch s
      if run.2 then (.error "agent runtime threw", run.1)
      else
        match getRunOutcome env.orchRunId run.1 with
        | none => (.error "Email agent did not record a deliverable", run.1)
        | some outcome =>
            match getEmailDeliverable outcome.cacheKey run.1 with
            | none => (.error "Deliverable missing from cache", run.1)
            | some d => (.ok ⟨d, outcome.identicalToExisting, outcome.cacheKey, env.orchRunId⟩, run.1)

/-- `runEmailAgentFromPayload`: validate, guard, dispatch on the provider
flag; an orchestrated failure is swallowed and retried through the fallback.
A throw that escapes the driver itself (only possible from the fallback) is
`Except.error`. -/
def runEmailAgentFromPayload (env : DriverEnv) (payload : RawEmailPayload)
    (s : DeliverablesState) :
    Except String (EmailAgentRunnerResponse × DeliverablesState) :=
  let providerConfigured := env.apiKey.isSome
  match parseEmailAgentInput payload with
  | .error msgs => .ok (.rejected (joinWith "; " msgs) (some providerConfigured), s)
  | .ok input =>
      match runGuardrails input with
      | some reason => .ok (.rejected reason (some providerConfigured), s)
      | none =>
          if providerConfigured then
            match runViaOrchestrator env s with
            | (.ok r, s2) =>
                .ok (.success r.deliverable r.identicalToExisting r.cacheKey r.runId
                      providerConfigured none, s2)
            | (.error _, s2) =>
                match runEmailDraftFallback input env.fallbackRunId s2 with
                | .error e => .error e
                | .ok (r, s3) =>
                    .ok (.success r.deliverable r.identicalToExisting r.cacheKey
                          env.fallbackRunId providerConfigured (some true), s3)
          else
            match runEmailDraftFallback input env.fallbackRunId s with
            | .error e => .error e
            | .ok (r, s1) =>
                .ok (.success r.deliverable r.identicalToExisting r.cacheKey
                      env.fallbackRunId providerConfigured (some true), s1)

/-! ### Operation sequences over the deliverable store (for the store invariant) -/

inductive StoreOp where
  | record (runId : String) (deliverable : EmailDraftDeliverable)
  | reset

def applyStoreOp (s : DeliverablesState) : StoreOp → DeliverablesState
  | .record runId d => (recordEmailDeliverable runId d s).2
  | .reset => resetDeliverables

def runStoreOps (ops : List StoreOp) : DeliverablesState :=
  ops.foldl applyStoreOp emptyDeliverables

deriving instance DecidableEq for Except

/-! ### Map lemmas -/

theorem mapGet_mapSet_self {α : Type} (k : String) (v : α) (m : List (String × α)) :
    mapGet k (mapSet k v m) = some v := by
  induction m with
  | nil => simp [mapGet, mapSet]
  | cons hd t ih =>
      obtain ⟨k2, v2⟩ := hd
      by_cases h : k = k2
      · simp [mapGet, mapSet, h]
      · simp [mapGet, mapSet, h, ih]

theorem mapGet_mapSet_ne {α : Type} {k k2 : String} (h : k ≠ k2) (v : α)
    (m : List (String × α)) : mapGet k (mapSet k2 v m) = mapGet k m := by
  induction m with
  | nil => simp [mapGet, mapSet, h]
  | cons hd t ih =>
      obtain ⟨k3, v3⟩ := hd
      by_cases h2 : k2 = k3
      · subst h2
        simp [mapGet, mapSet, h]
      · by_cases h3 : k = k3
        · simp [mapGet, mapSet, h2, h3]
        · simp [mapGet, mapSet, h2, h3, ih]

/-! ### Length lemmas for the generated strings -/

theorem le_length_joinWith (sep x : String) :
    ∀ l : List String, x ∈ l → x.length ≤ (joinWith sep l).length := by
  intro l
  induction l with
  | nil => intro h; simp at h
  | cons a t ih =>
      intro hmem
      cases t with
      | nil =>
          have hx : x = a := by simpa using hmem
          subst hx
          simp [joinWith]
      | cons b t2 =>
          rcases List.mem_cons.mp hmem with h | h
          · subst h
            simp [joinWith, String.length_append]
            omega
          · have h2 := ih h
            simp only [joinWith, String.length_append]
            simp only [joinWith] at h2
            omega

theorem string_ne_empty_of_pos {s : String} (h : 0 < s.length) : s ≠ "" := by
  intro he
  subst he
  simp at h

theorem three_le_buildSubject (input : EmailDraftAgentInput)
    (h2 : 2 ≤ input.recipient.length) : 3 ≤ (buildSubject input).length := by
  have hne : input.recipient ≠ "" := string_ne_empty_of_pos (by omega)
  have hf : ("For " : String).length = 4 := by decide
  have hc : (": " : String).length = 2 := by decide
  simp [buildSubject, hne, String.length_append]
  omega

theorem twentyfive_le_buildPrimaryBody (input : EmailDraftAgentInput) :
    25 ≤ (buildPrimaryBody input).length := by
  simp only [buildPrimaryBody]
  have hmem : "Here are the talking points we'll highlight:" ∈
      List.filter (fun line => line ≠ "")
        [(chooseTone input.tone).greeting ++ " " ++
            (if input.recipient ≠ "" then input.recipient else "there") ++ ",", "",
         jsTrim ((if (chooseTone input.tone).voice = "formal" then "I hope you are well."
             else "I hope your day is going well.") ++ " " ++
           normalizeSentence
             (input.additionalContext.getD
               "I wanted to summarize the plan so we can keep momentum on the request")), "",
         "Here are the talking points we'll highlight:", bulletList input.keyPoints, "",
         (if (chooseTone input.tone).voice = "direct" then
            "Let me know if anything needs adjustment so I can update immediately."
          else
            "Please let me know if anything needs refining or if you'd like to discuss details."),
         "", (chooseTone input.tone).signOff ++ ",", "SideKick OS Assistant"] :=
    List.mem_filter.mpr ⟨by simp, by decide⟩
  calc (25 : Nat) ≤ ("Here are the talking points we'll highlight:" : String).length := by decide
    _ ≤ _ := le_length_joinWith _ _ _ hmem

theorem buildVariantBodies_length (input : EmailDraftAgentInput) :
    (buildVariantBodies input).length = min input.variants 3 := by
  simp [buildVariantBodies, List.length_take]

theorem buildVariantBodies_labels (input : EmailDraftAgentInput) :
    ((buildVariantBodies input).all fun v => 3 ≤ v.label.length) = true := by
  rw [List.all_eq_true]
  intro v hv
  simp only [buildVariantBodies] at hv
  obtain ⟨⟨lab, bod⟩, hlv, rfl⟩ := List.mem_map.mp hv
  have hlv2 := List.take_subset _ _ hlv
  simp only [List.mem_cons, List.not_mem_nil, or_false] at hlv2
  rcases hlv2 with h | h | h <;>
    · have hlab := congrArg Prod.fst h
      dsimp only at hlab
      subst hlab
      dsimp only
      decide

theorem buildVariantBodies_bodies (input : EmailDraftAgentInput) :
    ((buildVariantBodies input).all fun v => 10 ≤ v.body.length) = true := by
  rw [List.all_eq_true]
  intro v hv
  simp only [buildVariantBodies] at hv
  obtain ⟨⟨lab, bod⟩, hlv, rfl⟩ := List.mem_map.mp hv
  have hlv2 := List.take_subset _ _ hlv
  simp only [List.mem_cons, List.not_mem_nil, or_false] at hlv2
  rcases hlv2 with h | h | h <;>
    · have hbod := congrArg Prod.snd h
      dsimp only at hbod
      subst hbod
      dsimp only
      simp only [decide_eq_true_eq]
      exact le_trans (by decide)
        (le_length_joinWith "\n" "SideKick OS Assistant" _ (by simp))

theorem emailDraftCheck_built (input : EmailDraftAgentInput)
    (hv : validEmailInput input = true) :
    emailDraftCheck ⟨buildSubject input, buildPrimaryBody input, buildVariantBodies input⟩ =
      .ok ⟨buildSubject input, buildPrimaryBody input, buildVariantBodies input⟩ := by
  simp only [validEmailInput, Bool.and_eq_true, decide_eq_true_eq] at hv
  obtain ⟨⟨⟨⟨⟨⟨h1, h2⟩, h3⟩, h4⟩, h5⟩, h6⟩, h7⟩ := hv
  have hs := three_le_buildSubject input h1
  have hb := twentyfive_le_buildPrimaryBody input
  have hl := buildVariantBodies_labels input
  have hbo := buildVariantBodies_bodies input
  have hle : (buildVariantBodies input).length ≤ 3 := by
    rw [buildVariantBodies_length]; omega
  have c1 : ¬ (buildSubject input).length < 3 := by omega
  have c2 : ¬ (buildPrimaryBody input).length < 25 := by omega
  have c3 : ¬ 4 < (buildVariantBodies input).length := by omega
  simp [emailDraftCheck, c1, c2, c3, hl, hbo]

theorem deliverableCheck_fallback (input : EmailDraftAgentInput)
    (hv : validEmailInput input = true) (ht : input.tone.length ≤ 32) :
    emailDraftDeliverableCheck (fallbackDeliverable input) = .ok (fallbackDeliverable input) := by
  have hd := emailDraftCheck_built input hv
  simp only [validEmailInput, Bool.and_eq_true, decide_eq_true_eq] at hv
  obtain ⟨⟨⟨⟨⟨⟨h1, h2⟩, h3⟩, h4⟩, h5⟩, h6⟩, h7⟩ := hv
  have m1 : ¬ (input.recipient.length < 2) := by omega
  have m2 : ¬ (input.keyPoints.length < 1) := by omega
  have mt1 : optMinLen 3 (some input.tone) = true := by simp [optMinLen]; omega
  have mt2 : optMaxLen 32 (some input.tone) = true := by simp [optMaxLen]; omega
  simp [emailDraftDeliverableCheck, fallbackDeliverable, hd, m1, m2, mt1, mt2, h4, h5]

theorem runEmailDraftFallback_ok (input : EmailDraftAgentInput) (runId : String)
    (s : DeliverablesState) (hv : validEmailInput input = true)
    (ht : input.tone.length ≤ 32) (hr : runId ≠ "") :
    runEmailDraftFallback input runId s =
      .ok (recordEmailDeliverable runId (fallbackDeliverable input) s) := by
  have hb : buildDeliverable input = .ok (fallbackDeliverable input) := by
    simp [buildDeliverable, emailDraftCheck_built input hv]
  have hn : normalizeEmailDeliverable (fallbackDeliverable input) =
      .ok (fallbackDeliverable input) := by
    simp [normalizeEmailDeliverable, deliverableCheck_fallback input hv ht]
  simp [runEmailDraftFallback, hb, reportEmailDraft, hr, hn]

/-! ### C1: semantics of `recordEmailDeliverable` -/

/-- C1: for every runId and deliverable, `record(runId, deliverable)` computes
the fingerprint of `{runId, metadata}`; if an entry already exists for that
fingerprint it returns the existing stored deliverable (not the newly supplied
one) with `identicalToExisting = true` and leaves the stored deliverable map
unchanged; otherwise it stores the new deliverable and returns it with
`identicalToExisting = false`; in both cases it updates the `RunOutcome` for
the runId. -/
theorem recordEmailDeliverable_spec (runId : String) (d : EmailDraftDeliverable)
    (s : DeliverablesState) :
    (recordEmailDeliverable runId d s).1.cacheKey = deliverableCacheKey runId d.metadata ∧
    getRunOutcome runId (recordEmailDeliverable runId d s).2 =
      some ⟨(recordEmailDeliverable runId d s).1.cacheKey,
            (recordEmailDeliverable runId d s).1.identicalToExisting⟩ ∧
    (∀ e, getEmailDeliverable (deliverableCacheKey runId d.metadata) s = some e →
      (recordEmailDeliverable runId d s).1.deliverable = e ∧
      (recordEmailDeliverable runId d s).1.identicalToExisting = true ∧
      (recordEmailDeliverable runId d s).2.deliverablesByKey = s.deliverablesByKey) ∧
    (getEmailDeliverable (deliverableCacheKey runId d.metadata) s = none →
      (recordEmailDeliverable runId d s).1.deliverable = d ∧
      (recordEmailDeliverable runId d s).1.identicalToExisting = false ∧
      getEmailDeliverable (deliverableCacheKey runId d.metadata)
        (recordEmailDeliverable runId d s).2 = some d) := by
  cases hc : mapGet (deliverableCacheKey runId d.metadata) s.deliverablesByKey with
  | some e0 =>
      refine ⟨?_, ?_, ?_, ?_⟩
      · simp [recordEmailDeliverable, hc]
      · simp [recordEmailDeliverable, getRunOutcome, hc, mapGet_mapSet_self]
      · intro e he
        simp only [getEmailDeliverable] at he
        rw [hc] at he
        cases he
        refine ⟨?_, ?_, ?_⟩ <;> simp [recordEmailDeliverable, hc]
      · intro he
        simp only [getEmailDeliverable] at he
        rw [hc] at he
        cases he
  | none =>
      refine ⟨?_, ?_, ?_, ?_⟩
      · simp [recordEmailDeliverable, hc]
      · simp [recordEmailDeliverable, getRunOutcome, hc, mapGet_mapSet_self]
      · intro e he
        simp only [getEmailDeliverable] at he
        rw [hc] at he
        cases he
      · intro _
        refine ⟨?_, ?_, ?_⟩ <;>
          simp [recordEmailDeliverable, getEmailDeliverable, hc, mapGet_mapSet_self]

/-- A concrete deliverable used by the witnesses. -/
def sampleDeliverable : EmailDraftDeliverable :=
  ⟨⟨"For Alex: Budget review",
    "Hello Alex,\nHere is the plan for the upcoming budget review cycle.", []⟩,
   ⟨"Alex", some "formal", ["Budget review"], none⟩⟩

/-- A store that already holds `sampleDeliverable` under its fingerprint for run `r1`. -/
def sampleHitState : DeliverablesState :=
  ⟨[(deliverableCacheKey "r1" sampleDeliverable.metadata, sampleDeliverable)], []⟩

/-- Witness for C1, at a concrete fingerprint hit. -/
theorem recordEmailDeliverable_spec_witness :
    getEmailDeliverable (deliverableCacheKey "r1" sampleDeliverable.metadata) sampleHitState =
      some sampleDeliverable ∧
    ((recordEmailDeliverable "r1" sampleDeliverable sampleHitState).1.deliverable =
        sampleDeliverable ∧
     (recordEmailDeliverable "r1" sampleDeliverable sampleHitState).1.identicalToExisting = true ∧
     (recordEmailDeliverable "r1" sampleDeliverable sampleHitState).2.deliverablesByKey =
       sampleHitState.deliverablesByKey) := by
  have hget : getEmailDeliverable (deliverableCacheKey "r1" sampleDeliverable.metadata)
      sampleHitState = some sampleDeliverable := by
    simp [getEmailDeliverable, sampleHitState, mapGet]
  exact ⟨hget,
    (recordEmailDeliverable_spec "r1" sampleDeliverable sampleHitState).2.2.1
      sampleDeliverable hget⟩

/-! ### C2: idempotency of the fallback generator -/

/-- C2 (amended): for every input accepted by the input schema whose tone also
fits the deliverable schema's 32-character cap (so the run does not throw), and
every fixed non-empty runId, invoking the fallback generator twice with the
same input and runId yields `identicalToExisting = true` on the second call,
the same cacheKey on both calls, and byte-identical `draft.body` on both
calls. -/
theorem fallback_idempotent (input : EmailDraftAgentInput) (runId : String)
    (s : DeliverablesState) (hv : validEmailInput input = true)
    (ht : input.tone.length ≤ 32) (hr : runId ≠ "") :
    ∃ r1 s1 r2 s2,
      runEmailDraftFallback input runId s = .ok (r1, s1) ∧
      runEmailDraftFallback input runId s1 = .ok (r2, s2) ∧
      r2.identicalToExisting = true ∧
      r2.cacheKey = r1.cacheKey ∧
      r2.deliverable.draft.body = r1.deliverable.draft.body := by
  have h2 : ∀ st, runEmailDraftFallback input runId st =
      .ok (recordEmailDeliverable runId (fallbackDeliverable input) st) :=
    fun st => runEmailDraftFallback_ok input runId st hv ht hr
  set dfb := fallbackDeliverable input with hdfb
  set k := deliverableCacheKey runId dfb.metadata with hk
  cases hc : mapGet k s.deliverablesByKey with
  | some e =>
      have e1 : recordEmailDeliverable runId dfb s =
          (⟨e, true, k⟩, ⟨s.deliverablesByKey, mapSet runId ⟨k, true⟩ s.runOutcomeById⟩) := by
        simp [recordEmailDeliverable, ← hk, hc]
      have e2 : recordEmailDeliverable runId dfb
          ⟨s.deliverablesByKey, mapSet runId ⟨k, true⟩ s.runOutcomeById⟩ =
          (⟨e, true, k⟩,
           ⟨s.deliverablesByKey,
            mapSet runId ⟨k, true⟩ (mapSet runId ⟨k, true⟩ s.runOutcomeById)⟩) := by
        simp [recordEmailDeliverable, ← hk, hc]
      exact ⟨⟨e, true, k⟩, ⟨s.deliverablesByKey, mapSet runId ⟨k, true⟩ s.runOutcomeById⟩,
             ⟨e, true, k⟩,
             ⟨s.deliverablesByKey,
              mapSet runId ⟨k, true⟩ (mapSet runId ⟨k, true⟩ s.runOutcomeById)⟩,
             by rw [h2 s, e1], by rw [h2 _, e2], rfl, rfl, rfl⟩
  | none =>
      have e1 : recordEmailDeliverable runId dfb s =
          (⟨dfb, false, k⟩,
           ⟨mapSet k dfb s.deliverablesByKey, mapSet runId ⟨k, false⟩ s.runOutcomeById⟩) := by
        simp [recordEmailDeliverable, ← hk, hc]
      have e2 : recordEmailDeliverable runId dfb
          ⟨mapSet k dfb s.deliverablesByKey, mapSet runId ⟨k, false⟩ s.runOutcomeById⟩ =
          (⟨dfb, true, k⟩,
           ⟨mapSet k dfb s.deliverablesByKey,
            mapSet runId ⟨k, true⟩ (mapSet runId ⟨k, false⟩ s.runOutcomeById)⟩) := by
        simp [recordEmailDeliverable, ← hk, mapGet_mapSet_self]
      exact ⟨⟨dfb, false, k⟩,
             ⟨mapSet k dfb s.deliverablesByKey, mapSet runId ⟨k, false⟩ s.runOutcomeById⟩,
             ⟨dfb, true, k⟩,
             ⟨mapSet k dfb s.deliverablesByKey,
              mapSet runId ⟨k, true⟩ (mapSet runId ⟨k, false⟩ s.runOutcomeById)⟩,
             by rw [h2 s, e1], by rw [h2 _, e2], rfl, rfl, rfl⟩

/-- The worked example input of the spec's idempotency property. -/
def sampleInput : EmailDraftAgentInput :=
  ⟨"Alex Rivera", "friendly",
   ["Confirm deployment timeline", "Highlight compliance summary"],
   some "Reference the updated pricing schedule from 11/10.", 2⟩

/-- Witness for C2 at the spec's worked example, runId `"cached-run"`. -/
theorem fallback_idempotent_witness :
    validEmailInput sampleInput = true ∧ sampleInput.tone.length ≤ 32 ∧
    ("cached-run" : String) ≠ "" ∧
    (∃ r1 s1 r2 s2,
      runEmailDraftFallback sampleInput "cached-run" emptyDeliverables = .ok (r1, s1) ∧
      runEmailDraftFallback sampleInput "cached-run" s1 = .ok (r2, s2) ∧
      r2.identicalToExisting = true ∧
      r2.cacheKey = r1.cacheKey ∧
      r2.deliverable.draft.body = r1.deliverable.draft.body) :=
  ⟨by decide, by decide, by decide,
   fallback_idempotent sampleInput "cached-run" emptyDeliverables
     (by decide) (by decide) (by decide)⟩

/-- An input the input schema accepts whose tone is longer than 32 characters. -/
def longToneInput : EmailDraftAgentInput :=
  ⟨"Alex Rivera", "very very very warm and enthusiastic",
   ["Confirm deployment timeline"], none, 2⟩

set_option maxRecDepth 4000 in
/-- Counterexample for C2 as frozen: at a schema-valid input with a
36-character tone, the fallback generator throws on every invocation (the
deliverable re-validation rejects the echoed tone), so invoking it twice under
a fixed runId never yields `identicalToExisting = true`; with runId `""` it
throws as well. -/
theorem fallback_idempotent_counterexample :
    validEmailInput longToneInput = true ∧
    runEmailDraftFallback longToneInput "cached-run" emptyDeliverables =
      .error "String must contain at most 32 character(s)" ∧
    runEmailDraftFallback sampleInput "" emptyDeliverables =
      .error "Missing run identifier while recording deliverable" := by
  refine ⟨by decide, ?_, ?_⟩ <;> decide

/-! ### C3: cache-key determinism and serialization order -/

/-- `{runId: "r1", metadata: M}` with `M`'s keys in declaration order. -/
def orderedPayloadA : Json :=
  .obj [("runId", .str "r1"),
        ("metadata", .obj [("recipient", .str "Alex"), ("tone", .str "formal")])]

/-- The same `runId` and a semantically equal `M` with its two keys swapped. -/
def orderedPayloadB : Json :=
  .obj [("runId", .str "r1"),
        ("metadata", .obj [("tone", .str "formal"), ("recipient", .str "Alex")])]

/-- Counterexample for C3 as frozen: the key derivation hashes the
insertion-ordered `JSON.stringify` serialization, so a semantically equal
metadata object with differently-ordered keys produces a different key. -/
theorem computeDeliverableKey_order_sensitive :
    computeDeliverableKey orderedPayloadA ≠ computeDeliverableKey orderedPayloadB := by
  decide

/-- C3 (amended): `computeKey` is a pure function of the `JSON.stringify`
serialization of its (nullish-coalesced) argument — identical payloads, and
more generally payloads with identical serializations, always map to the same
string; key order is part of the serialization, so reordering keys may change
the result (see the order-sensitivity counterexample). -/
theorem computeDeliverableKey_deterministic (p q : Json)
    (h : jsonRender (jsonOrEmptyObject p) = jsonRender (jsonOrEmptyObject q)) :
    computeDeliverableKey p = computeDeliverableKey q := by
  unfold computeDeliverableKey
  rw [h]

/-- Witness for C3 (amended), at two distinct payloads with equal
serializations (an `undefined` field is dropped by `JSON.stringify`). -/
theorem computeDeliverableKey_deterministic_witness :
    jsonRender (jsonOrEmptyObject (.obj [("runId", .str "r1"), ("extra", .undef)])) =
      jsonRender (jsonOrEmptyObject (.obj [("runId", .str "r1")])) ∧
    computeDeliverableKey (.obj [("runId", .str "r1"), ("extra", .undef)]) =
      computeDeliverableKey (.obj [("runId", .str "r1")]) :=
  ⟨by decide,
   computeDeliverableKey_deterministic (.obj [("runId", .str "r1"), ("extra", .undef)])
     (.obj [("runId", .str "r1")]) (by decide)⟩

/-! ### C4: orchestrated failures are recovered through the fallback -/

theorem valid_of_parse {p : RawEmailPayload} {input : EmailDraftAgentInput}
    (h : parseEmailAgentInput p = .ok input) : validEmailInput input = true := by
  unfold parseEmailAgentInput at h
  split at h
  case isFalse => cases h
  case isTrue hm =>
    cases h
    simp only [validationMessages, List.append_eq_nil] at hm
    obtain ⟨⟨⟨⟨⟨hr, htn⟩, hkp⟩, hkp3⟩, hac⟩, hvar⟩ := hm
    simp only [ite_eq_right_iff, List.cons_ne_nil, imp_false] at hr htn hkp
    rw [List.map_eq_nil_iff, List.filter_eq_nil_iff] at hkp3
    simp only [validEmailInput, Bool.and_eq_true, decide_eq_true_eq]
    refine ⟨⟨⟨⟨⟨⟨by omega, by omega⟩, by omega⟩, ?_⟩, ?_⟩, ?_⟩, ?_⟩
    · rw [List.all_eq_true]
      intro x hx
      have h3 := hkp3 x hx
      simp only [decide_eq_true_eq] at h3 ⊢
      omega
    · cases hac2 : p.additionalContext with
      | none => simp [optMaxLen]
      | some a =>
          rw [hac2] at hac
          simp only [ite_eq_right_iff, List.cons_ne_nil, imp_false] at hac
          simp [optMaxLen]
          omega
    · cases hv2 : p.variants with
      | none => simp [hv2]
      | some v =>
          rw [hv2] at hvar
          simp only [List.append_eq_nil, ite_eq_right_iff, List.cons_ne_nil,
            imp_false] at hvar
          simp [hv2]
          omega
    · cases hv2 : p.variants with
      | none => simp [hv2]
      | some v =>
          rw [hv2] at hvar
          simp only [List.append_eq_nil, ite_eq_right_iff, List.cons_ne_nil,
            imp_false] at hvar
          simp [hv2]
          omega

/-- C4 (amended): for every payload the input schema accepts whose tone also
fits the deliverable schema's 32-character cap (so the fallback generator
itself cannot throw), if guardrails pass, a provider credential is configured,
and the orchestrated path fails — it throws, or completes without recording a
deliverable, or its recorded deliverable is missing — then the driver returns
a successful response carrying `fallbackUsed = true` and
`providerConfigured = true` together; the orchestration failure never reaches
the caller as an error. -/
theorem orchestration_failure_falls_back (env : DriverEnv) (payload : RawEmailPayload)
    (s : DeliverablesState) (input : EmailDraftAgentInput) (key errMsg : String)
    (hp : parseEmailAgentInput payload = .ok input)
    (hg : runGuardrails input = none)
    (hk : env.apiKey = some key)
    (ho : (runViaOrchestrator env s).1 = .error errMsg)
    (ht : input.tone.length ≤ 32)
    (hr : env.fallbackRunId ≠ "") :
    ∃ d ident ck s3,
      runEmailAgentFromPayload env payload s =
        .ok (.success d ident ck env.fallbackRunId true (some true), s3) := by
  have hv := valid_of_parse hp
  rcases h2 : runViaOrchestrator env s with ⟨res, s2⟩
  rw [h2] at ho
  simp only at ho
  subst ho
  have hf := runEmailDraftFallback_ok input env.fallbackRunId s2 hv ht hr
  simp [runEmailAgentFromPayload, hp, hg, hk, h2, hf]

/-- A driver environment with a configured provider whose agent runtime call
always throws. -/
def fbEnv : DriverEnv := ⟨some "sk-test", "uuid-orch", "uuid-fallback", fun st => (st, true)⟩

def okPayload : RawEmailPayload :=
  ⟨"Alex Rivera", "friendly", ["Confirm deployment timeline"], none, some 2⟩

def okInput : EmailDraftAgentInput :=
  ⟨"Alex Rivera", "friendly", ["Confirm deployment timeline"], none, 2⟩

/-- Witness for C4 at a concrete throwing orchestration. -/
theorem orchestration_failure_falls_back_witness :
    parseEmailAgentInput okPayload = .ok okInput ∧
    runGuardrails okInput = none ∧
    fbEnv.apiKey = some "sk-test" ∧
    (runViaOrchestrator fbEnv emptyDeliverables).1 = .error "agent runtime threw" ∧
    okInput.tone.length ≤ 32 ∧
    fbEnv.fallbackRunId ≠ "" ∧
    (∃ d ident ck s3,
      runEmailAgentFromPayload fbEnv okPayload emptyDeliverables =
        .ok (.success d ident ck fbEnv.fallbackRunId true (some true), s3)) :=
  ⟨by decide, by decide, rfl, rfl, by decide, by decide,
   orchestration_failure_falls_back fbEnv okPayload emptyDeliverables okInput
     "sk-test" "agent runtime threw" (by decide) (by decide) rfl rfl (by decide) (by decide)⟩

def longTonePayload : RawEmailPayload :=
  ⟨"Alex Rivera", "very very very warm and enthusiastic",
   ["Confirm deployment timeline"], none, some 2⟩

set_option maxRecDepth 4000 in
/-- Counterexample for C4 as frozen: at a schema-valid payload with a
36-character tone, the orchestrated path throws, the internal fallback retry
throws during deliverable re-validation, and that error escapes to the caller
instead of a successful `fallbackUsed = true` response. -/
theorem orchestration_failure_falls_back_counterexample :
    parseEmailAgentInput longTonePayload = .ok longToneInput ∧
    (runViaOrchestrator fbEnv emptyDeliverables).1 = .error "agent runtime threw" ∧
    runEmailAgentFromPayload fbEnv longTonePayload emptyDeliverables =
      .error "String must contain at most 32 character(s)" := by
  refine ⟨by decide, rfl, ?_⟩
  decide

/-! ### C5: guardrail rejection of sensitive input -/

/-- C5: for every input the schema accepts whose concatenated recipient, tone,
additionalContext and key points match a disallowed-content pattern, the
driver returns a `Rejected` result whose reason matches a case-insensitive
"sensitive information" pattern, and the deliverable store is left untouched
for that attempt. -/
theorem guardrail_rejects_sensitive (env : DriverEnv) (payload : RawEmailPayload)
    (s : DeliverablesState) (input : EmailDraftAgentInput)
    (hp : parseEmailAgentInput payload = .ok input)
    (hm : matchesSensitive (guardrailText input) = true) :
    runEmailAgentFromPayload env payload s =
      .ok (.rejected guardrailReason (some env.apiKey.isSome), s) ∧
    charsHaveSubstr ("sensitive information".data) ((lowerStr guardrailReason).data) = true := by
  constructor
  · simp [runEmailAgentFromPayload, hp, runGuardrails, hm]
  · decide

def sensitivePayload : RawEmailPayload :=
  ⟨"Alex Rivera", "friendly", ["Share password details"], none, some 2⟩

def sensitiveInput : EmailDraftAgentInput :=
  ⟨"Alex Rivera", "friendly", ["Share password details"], none, 2⟩

/-- A driver environment with no provider credential configured. -/
def noProviderEnv : DriverEnv := ⟨none, "uuid-orch", "uuid-fallback", fun st => (st, false)⟩

/-- Witness for C5 at the spec's guardrail example `keyPoints = ["Share password details"]`. -/
theorem guardrail_rejects_sensitive_witness :
    parseEmailAgentInput sensitivePayload = .ok sensitiveInput ∧
    matchesSensitive (guardrailText sensitiveInput) = true ∧
    (runEmailAgentFromPayload noProviderEnv sensitivePayload emptyDeliverables =
       .ok (.rejected guardrailReason (some noProviderEnv.apiKey.isSome), emptyDeliverables) ∧
     charsHaveSubstr ("sensitive information".data) ((lowerStr guardrailReason).data) = true) :=
  ⟨by decide, by decide,
   guardrail_rejects_sensitive noProviderEnv sensitivePayload emptyDeliverables
     sensitiveInput (by decide) (by decide)⟩

/-! ### C6: the defensive re-validation of the fallback deliverable -/

def overlongToneInput : EmailDraftAgentInput :=
  ⟨"Jordan Lee", "warm but extremely formal and performative",
   ["Summarize quarterly results"], none, 2⟩

set_option maxRecDepth 4000 in
/-- C6 (the code contradicts it): the input schema puts no upper bound on
`tone`, but the deliverable schema caps `metadata.tone` at 32 characters, so
for a schema-valid input with a 42-character tone the fallback assembles its
draft successfully and then the defensive re-validation of the assembled
deliverable throws. -/
theorem fallback_revalidation_can_fail :
    validEmailInput overlongToneInput = true ∧
    buildDeliverable overlongToneInput = .ok (fallbackDeliverable overlongToneInput) ∧
    normalizeEmailDeliverable (fallbackDeliverable overlongToneInput) =
      .error "String must contain at most 32 character(s)" ∧
    runEmailDraftFallback overlongToneInput "run-c6" emptyDeliverables =
      .error "String must contain at most 32 character(s)" := by
  refine ⟨by decide, ?_, ?_, ?_⟩ <;> decide

/-! ### C7: variant count of the fallback draft -/

/-- C7: the fallback-generated `draft.variants` sequence has length
`min(requested variants, 3)` — for every input, in particular every validated
one. -/
theorem fallback_variant_count (input : EmailDraftAgentInput) :
    (fallbackDeliverable input).draft.variants.length = min input.variants 3 := by
  simpa [fallbackDeliverable] using buildVariantBodies_length input

/-! ### C8: empty keyPoints fail validation before guardrails or generation -/

/-- C8: for every request payload with `keyPoints = []`, the driver fails
validation and returns a `Rejected` result carrying the joined field-level
messages, with the deliverable store untouched — neither the guardrail nor any
generator has run. -/
theorem empty_keypoints_rejected (env : DriverEnv) (payload : RawEmailPayload)
    (s : DeliverablesState) (hk : payload.keyPoints = []) :
    validationMessages payload ≠ [] ∧
    "List at least one key point." ∈ validationMessages payload ∧
    runEmailAgentFromPayload env payload s =
      .ok (.rejected (joinWith "; " (validationMessages payload))
            (some env.apiKey.isSome), s) := by
  have hmem : "List at least one key point." ∈ validationMessages payload := by
    simp [validationMessages, hk]
  have hne : validationMessages payload ≠ [] := by
    intro h0
    rw [h0] at hmem
    cases hmem
  have hp : parseEmailAgentInput payload = .error (validationMessages payload) := by
    simp [parseEmailAgentInput, hne]
  refine ⟨hne, hmem, ?_⟩
  simp [runEmailAgentFromPayload, hp]

def emptyKeyPointsPayload : RawEmailPayload :=
  ⟨"Alex Rivera", "friendly", [], none, some 2⟩

/-- Witness for C8 at a concrete payload with an empty key-point list. -/
theorem empty_keypoints_rejected_witness :
    emptyKeyPointsPayload.keyPoints = [] ∧
    (validationMessages emptyKeyPointsPayload ≠ [] ∧
     "List at least one key point." ∈ validationMessages emptyKeyPointsPayload ∧
     runEmailAgentFromPayload noProviderEnv emptyKeyPointsPayload emptyDeliverables =
       .ok (.rejected (joinWith "; " (validationMessages emptyKeyPointsPayload))
             (some noProviderEnv.apiKey.isSome), emptyDeliverables)) :=
  ⟨rfl, empty_keypoints_rejected noProviderEnv emptyKeyPointsPayload emptyDeliverables rfl⟩

/-! ### C9: wholesale history replacement, silent no-op on unknown threads -/

/-- C9: for every threadId and item list, `updateHistory` replaces the stored
session's history wholesale when the threadId is known (other threads
untouched), and when the threadId is unknown it does nothing at all — the
embedding is a total function, so it never throws, and it returns the store
unchanged. -/
theorem updateSessionHistory_spec (threadId : String) (items : List AgentInputItem)
    (sessions : SessionMap) :
    (mapGet threadId sessions = none →
      updateSessionHistory threadId items sessions = sessions) ∧
    (∀ e, mapGet threadId sessions = some e →
      mapGet threadId (updateSessionHistory threadId items sessions) =
        some ⟨e.context, items⟩ ∧
      ∀ t2, t2 ≠ threadId →
        mapGet t2 (updateSessionHistory threadId items sessions) = mapGet t2 sessions) := by
  constructor
  · intro h
    simp [updateSessionHistory, h]
  · intro e he
    constructor
    · simp [updateSessionHistory, he, mapGet_mapSet_self]
    · intro t2 ht2
      simp [updateSessionHistory, he, mapGet_mapSet_ne ht2]

def sampleContext : EmailAgentRuntimeContext :=
  ⟨"run-0", some "thread-1", "email-draft", "compose-email",
   "2026-01-01T00:00:00.000Z", none⟩

def sampleSessions : SessionMap := [("thread-1", ⟨sampleContext, []⟩)]

def sampleItems : List AgentInputItem := [⟨"user", "Draft the follow-up email"⟩]

/-- Witness for C9: a concrete unknown-thread no-op and a concrete known-thread
replacement. -/
theorem updateSessionHistory_spec_witness :
    mapGet "thread-9" sampleSessions = none ∧
    updateSessionHistory "thread-9" sampleItems sampleSessions = sampleSessions ∧
    mapGet "thread-1" sampleSessions = some ⟨sampleContext, []⟩ ∧
    mapGet "thread-1" (updateSessionHistory "thread-1" sampleItems sampleSessions) =
      some ⟨sampleContext, sampleItems⟩ :=
  ⟨by decide,
   (updateSessionHistory_spec "thread-9" sampleItems sampleSessions).1 (by decide),
   by decide,
   ((updateSessionHistory_spec "thread-1" sampleItems sampleSessions).2
     ⟨sampleContext, []⟩ (by decide)).1⟩

/-! ### C10: every recorded outcome points at a cached deliverable -/

/-- The invariant: any runId with a `RunOutcome` has that outcome's cacheKey
present in the deliverable map. -/
def deliverableStoreInv (s : DeliverablesState) : Prop :=
  ∀ runId o, getRunOutcome runId s = some o →
    ∃ d, getEmailDeliverable o.cacheKey s = some d

theorem deliverableStoreInv_empty : deliverableStoreInv emptyDeliverables := by
  intro runId o h
  simp [getRunOutcome, emptyDeliverables, mapGet] at h

theorem deliverableStoreInv_step (s : DeliverablesState) (op : StoreOp)
    (h : deliverableStoreInv s) : deliverableStoreInv (applyStoreOp s op) := by
  cases op with
  | reset =>
      intro runId o ho
      simp [applyStoreOp, resetDeliverables, emptyDeliverables, getRunOutcome, mapGet] at ho
  | record rid d =>
      intro runId o ho
      obtain ⟨kk, hkey⟩ : ∃ kk, deliverableCacheKey rid d.metadata = kk := ⟨_, rfl⟩
      cases hc : mapGet kk s.deliverablesByKey with
      | some e =>
          have e1 : applyStoreOp s (.record rid d) =
              ⟨s.deliverablesByKey, mapSet rid ⟨kk, true⟩ s.runOutcomeById⟩ := by
            simp [applyStoreOp, recordEmailDeliverable, hkey, hc]
          rw [e1] at ho ⊢
          simp only [getRunOutcome] at ho
          by_cases hr : runId = rid
          · subst hr
            rw [mapGet_mapSet_self] at ho
            cases ho
            exact ⟨e, by simpa [getEmailDeliverable] using hc⟩
          · rw [mapGet_mapSet_ne hr] at ho
            obtain ⟨d2, hd2⟩ := h runId o (by simpa [getRunOutcome] using ho)
            exact ⟨d2, by simpa [getEmailDeliverable] using hd2⟩
      | none =>
          have e1 : applyStoreOp s (.record rid d) =
              ⟨mapSet kk d s.deliverablesByKey,
               mapSet rid ⟨kk, false⟩ s.runOutcomeById⟩ := by
            simp [applyStoreOp, recordEmailDeliverable, hkey, hc]
          rw [e1] at ho ⊢
          simp only [getRunOutcome] at ho
          by_cases hr : runId = rid
          · subst hr
            rw [mapGet_mapSet_self] at ho
            cases ho
            exact ⟨d, by simp [getEmailDeliverable, mapGet_mapSet_self]⟩
          · rw [mapGet_mapSet_ne hr] at ho
            obtain ⟨d2, hd2⟩ := h runId o (by simpa [getRunOutcome] using ho)
            by_cases hck : o.cacheKey = kk
            · exact ⟨d, by simp [getEmailDeliverable, hck, mapGet_mapSet_self]⟩
            · refine ⟨d2, ?_⟩
              simp only [getEmailDeliverable]
              rw [mapGet_mapSet_ne hck]
              simpa [getEmailDeliverable] using hd2

theorem deliverableStoreInv_fold (ops : List StoreOp) :
    ∀ s, deliverableStoreInv s → deliverableStoreInv (ops.foldl applyStoreOp s) := by
  induction ops with
  | nil => intro s h; exact h
  | cons op rest ih => intro s h; exact ih _ (deliverableStoreInv_step s op h)

/-- C10: after any sequence of `recordEmailDeliverable` and `resetDeliverables`
operations from the empty store, every runId for which `getRunOutcome` returns
an outcome has that outcome's cacheKey present in the deliverable map, so
`getEmailDeliverable(outcome.cacheKey)` is defined — the driver's "Deliverable
missing from cache" branch is unreachable whenever an outcome exists. -/
theorem store_outcome_invariant (ops : List StoreOp) (runId : String) (o : RunOutcome)
    (h : getRunOutcome runId (runStoreOps ops) = some o) :
    ∃ d, getEmailDeliverable o.cacheKey (runStoreOps ops) = some d :=
  deliverableStoreInv_fold ops emptyDeliverables deliverableStoreInv_empty runId o h

/-- Witness for C10 after one concrete record operation. -/
theorem store_outcome_invariant_witness :
    getRunOutcome "r1" (runStoreOps [.record "r1" sampleDeliverable]) =
      some ⟨deliverableCacheKey "r1" sampleDeliverable.metadata, false⟩ ∧
    ∃ d, getEmailDeliverable
        (RunOutcome.cacheKey ⟨deliverableCacheKey "r1" sampleDeliverable.metadata, false⟩)
        (runStoreOps [.record "r1" sampleDeliverable]) = some d := by
  have hout : getRunOutcome "r1" (runStoreOps [.record "r1" sampleDeliverable]) =
      some ⟨deliverableCacheKey "r1" sampleDeliverable.metadata, false⟩ := rfl
  exact ⟨hout, store_outcome_invariant [.record "r1" sampleDeliverable] "r1" _ hout⟩
